import Mathlib

/-
Verification of the malaysian-stock-tracker repository.

The repository has two variants of the script, src/stock_scraper.py (with
email notification) and src/Stock_scraper.py (without).  The quote
normalizer `get_closing_prices_yfinance` and the gate `is_market_day` are
character-identical in both; the orchestrator `run_stock_scraper` and the
persistence `save_to_csv` are embedded from src/stock_scraper.py, the
variant the claims cite for the persist/notify behaviour.

Python floats are modelled as exact rationals (ℚ); Python's `round(x, n)`
(round-half-to-even to n decimal digits) is modelled by `py_round`.
Optional dictionary fields (`data.get(key)`) are modelled as `Option ℚ`.
-/

namespace StockTracker

/-- Round-half-to-even of a rational to an integer, the tie-breaking rule of
Python's builtin `round`. -/
def round_half_even (x : ℚ) : ℤ :=
  if x - ⌊x⌋ < 1/2 then ⌊x⌋
  else if (1:ℚ)/2 < x - ⌊x⌋ then ⌊x⌋ + 1
  else if ⌊x⌋ % 2 = 0 then ⌊x⌋ else ⌊x⌋ + 1

/-- Python's `round(x, n)`: round to `n` decimal digits, ties to even. -/
def py_round (x : ℚ) (n : ℕ) : ℚ := (round_half_even (x * 10 ^ n) : ℚ) / 10 ^ n

/-- Raw provider payload for one symbol (`ticker.info`), restricted to the
six keys the script reads.  `none` models an absent key (or a null value),
exactly what `data.get(k)` returns as `None`. -/
structure RawQuote where
  regularMarketPrice : Option ℚ
  currentPrice : Option ℚ
  previousClose : Option ℚ
  regularMarketPreviousClose : Option ℚ
  dayHigh : Option ℚ
  dayLow : Option ℚ
deriving DecidableEq

/-- One normalized per-symbol record, the dictionary built at
src/stock_scraper.py lines 42-53. -/
structure Record where
  company_name : String
  symbol : String
  prev_close : ℚ
  last_done : ℚ
  high : ℚ
  low : ℚ
  change : ℚ
  change_pct : ℚ
  current_date : String
  prev_date : String
deriving DecidableEq

/-- Resolution of the last-done price: `data.get('regularMarketPrice')`,
then `if last_done is None: last_done = data.get('currentPrice')`
(src/stock_scraper.py lines 26 and 33-34). -/
def resolve_last (data : RawQuote) : Option ℚ :=
  match data.regularMarketPrice with
  | some v => some v
  | none => data.currentPrice

/-- Resolution of the previous close: `data.get('previousClose')`, then
`if prev_close is None: prev_close = data.get('regularMarketPreviousClose')`
(src/stock_scraper.py lines 27 and 35-36). -/
def resolve_prev (data : RawQuote) : Option ℚ :=
  match data.previousClose with
  | some v => some v
  | none => data.regularMarketPreviousClose

/-- The per-symbol body of `get_closing_prices_yfinance`
(src/stock_scraper.py lines 26-56): resolve both prices, and when both are
present build the record; otherwise produce nothing (the symbol is only
logged).  The two date strings stand for the `datetime.now()` formats. -/
def normalize (company symbol cur_date pre_date : String) (data : RawQuote) :
    Option Record :=
  match resolve_last data, resolve_prev data with
  | some last_done, some prev_close =>
      some
        { company_name := company
          symbol := symbol
          prev_close := py_round prev_close 3
          last_done := py_round last_done 3
          high := match data.dayHigh with | some h => py_round h 3 | none => 0
          low := match data.dayLow with | some l => py_round l 3 | none => 0
          change := py_round (last_done - prev_close) 3
          change_pct :=
            py_round
              (if prev_close ≠ 0 then (last_done - prev_close) / prev_close * 100 else 0) 2
          current_date := cur_date
          prev_date := pre_date }
  | _, _ => none

/-- The whole fetch loop of `get_closing_prices_yfinance`: one item per
symbol entry, in order.  The third component is `none` when the fetch threw
(the `except` path: log and continue), `some q` when `ticker.info`
returned payload `q`.  The result models the insertion-ordered
`closing_prices` dictionary keyed by company name. -/
def get_closing_prices (cur_date pre_date : String)
    (items : List (String × String × Option RawQuote)) : List Record :=
  items.filterMap fun it =>
    match it.2.2 with
    | none => none
    | some q => normalize it.1 it.2.1 cur_date pre_date q

/-- A quote whose primary keys are both present while the fallback keys
hold unrelated values. -/
def quote_primary : RawQuote :=
  { regularMarketPrice := some (21/2)
    currentPrice := some 999
    previousClose := some 10
    regularMarketPreviousClose := some 999
    dayHigh := none
    dayLow := none }

/-- A quote with `previousClose` equal to 0 (the division-guard case). -/
def quote_zero_prev : RawQuote :=
  { regularMarketPrice := some 5
    currentPrice := none
    previousClose := some 0
    regularMarketPreviousClose := none
    dayHigh := none
    dayLow := none }

/-- A quote on which rounding before and after the subtraction differ:
last 1.0004, prev 0.0008. -/
def quote_round_gap : RawQuote :=
  { regularMarketPrice := some (10004/10000)
    currentPrice := none
    previousClose := some (8/10000)
    regularMarketPreviousClose := none
    dayHigh := none
    dayLow := none }

/-- A quote with `regularMarketPrice` present but both previous-close keys
absent: neither primary nor fallback resolves `prev_close`. -/
def quote_no_prev : RawQuote :=
  { regularMarketPrice := some 5
    currentPrice := none
    previousClose := none
    regularMarketPreviousClose := none
    dayHigh := none
    dayLow := none }

/-- A two-symbol fetch: "A" resolves both prices, "B" resolves no previous
close. -/
def items_pair : List (String × String × Option RawQuote) :=
  [("A", "S1", some quote_primary), ("B", "S2", some quote_no_prev)]

/-- The record the normalizer produces for company "A" of `items_pair`. -/
def rec_a : Record :=
  { company_name := "A"
    symbol := "S1"
    prev_close := py_round 10 3
    last_done := py_round (21/2) 3
    high := 0
    low := 0
    change := py_round (21/2 - 10) 3
    change_pct := py_round (if (10:ℚ) ≠ 0 then (21/2 - 10) / 10 * 100 else 0) 2
    current_date := "2026-10-12"
    prev_date := "2026-10-11" }

/-- Sorting of the record set by `change_pct` descending, the
`df.sort_values('change_pct', ascending=False)` of
`generate_stock_summary` (src/stock_scraper.py line 175). -/
def sort_desc (rs : List Record) : List Record :=
  List.insertionSort (fun a b => b.change_pct ≤ a.change_pct) rs

instance : IsTotal Record (fun a b => b.change_pct ≤ a.change_pct) :=
  ⟨fun a b => le_total b.change_pct a.change_pct⟩

instance : IsTrans Record (fun a b => b.change_pct ≤ a.change_pct) :=
  ⟨fun _ _ _ hab hbc => le_trans hbc hab⟩

/-- The content of the text produced by `generate_stock_summary`
(src/stock_scraper.py lines 167-193): the five head rows and five tail
rows of the descending sort, and the four counts. -/
structure StockSummary where
  top_gainers : List Record
  top_losers : List Record
  total : ℕ
  gainers : ℕ
  losers : ℕ
  unchanged : ℕ
deriving DecidableEq

/-- Embeds `generate_stock_summary`: `df_sorted.head(5)` is `take 5`,
`df_sorted.tail(5)` is the last five elements, and the counts are row
counts of the filters `change_pct > 0`, `< 0`, `== 0` over the unsorted
record set. -/
def generate_stock_summary (rs : List Record) : StockSummary :=
  let s := sort_desc rs
  { top_gainers := s.take 5
    top_losers := s.drop (s.length - 5)
    total := rs.length
    gainers := rs.countP (fun r => decide (0 < r.change_pct))
    losers := rs.countP (fun r => decide (r.change_pct < 0))
    unchanged := rs.countP (fun r => decide (r.change_pct = 0)) }

/-- A record whose prices are all flat (`change_pct = 0`). -/
def flat_record (name : String) : Record :=
  { company_name := name
    symbol := name
    prev_close := 1
    last_done := 1
    high := 0
    low := 0
    change := 0
    change_pct := 0
    current_date := "2026-10-12"
    prev_date := "2026-10-11" }

/-- Six flat records: a record set with fewer than 10 elements. -/
def six_records : List Record :=
  [flat_record "R1", flat_record "R2", flat_record "R3",
   flat_record "R4", flat_record "R5", flat_record "R6"]

/-- The weekday of a proleptic-Gregorian ordinal day number, with Python's
convention `Monday = 0 .. Sunday = 6` (ordinal 1, 0001-01-01, is a
Monday, so `date.fromordinal(n).weekday() = (n + 6) % 7`). -/
def python_weekday (ordinal : ℕ) : ℕ := (ordinal + 6) % 7

/-- Embeds `is_market_day` (src/stock_scraper.py lines 195-201): false
exactly when `today.weekday() >= 5`. -/
def is_market_day (ordinal : ℕ) : Bool :=
  if 5 ≤ python_weekday ordinal then false else true

/-- The observable steps of one run of `run_stock_scraper`. -/
inductive Phase where
  | gate_skip
  | fetch_all
  | fail_msg
  | render
  | persist_csv
  | summary_text
  | notify
deriving DecidableEq

/-- Embeds `save_to_csv` (src/stock_scraper.py lines 68-90): empty data
returns `None`; otherwise the try-block returns the written path, or
`None` when `df.to_csv` raises.  `write_outcome` is the filesystem's
verdict: `some path` on success, `none` for an I/O error. -/
def save_to_csv (data : List Record) (write_outcome : Option String) :
    Option String :=
  if data.isEmpty then none else write_outcome

/-- Outcome of one orchestrator run: the phases that were reached in
order, and the process exit status. -/
structure RunResult where
  phases : List Phase
  exit_code : ℕ
deriving DecidableEq

/-- Embeds `run_stock_scraper` (src/stock_scraper.py lines 203-282).
`market_day` is the gate's verdict, `stock_data` the record set FETCH_ALL
produced, `write_outcome` the filesystem's verdict on the CSV write, and
`email_ok` the SMTP verdict (it only changes the logged message).  The
script exits 0 on every path: no `sys.exit`, and every exception is
caught inside `save_to_csv` / `send_email_with_attachment`. -/
def run_stock_scraper (market_day : Bool) (stock_data : List Record)
    (write_outcome : Option String) (email_ok : Bool) : RunResult :=
  if market_day = false then { phases := [Phase.gate_skip], exit_code := 0 }
  else if stock_data.isEmpty then
    { phases := [Phase.fetch_all, Phase.fail_msg], exit_code := 0 }
  else
    { phases :=
        [Phase.fetch_all, Phase.render, Phase.persist_csv, Phase.summary_text]
          ++ (if (save_to_csv stock_data write_outcome).isSome
              then [Phase.notify] else [])
      exit_code := 0 }

/-- The hard-coded placeholder credential, `sender_password`
(src/stock_scraper.py line 97). -/
def sender_password : String := "your_app_password_here"

/-- The credential `send_email_with_attachment` authenticates with
(src/stock_scraper.py line 150):
`os.environ.get('GMAIL_APP_PASSWORD', sender_password)`.  `env` models
the process environment. -/
def login_password (env : String → Option String) : String :=
  (env "GMAIL_APP_PASSWORD").getD sender_password

/-- C1: the normalizer resolves `last_done` from `regularMarketPrice` with
fallback `currentPrice`, and `prev_close` from `previousClose` with
fallback `regularMarketPreviousClose`; when both primary keys are present
the record stores exactly those values rounded to 3 decimals, whatever the
fallback keys hold. -/
theorem fallback_precedence :
    (∀ (q : RawQuote) (a : ℚ), q.regularMarketPrice = some a →
        resolve_last q = some a)
    ∧ (∀ (q : RawQuote) (a : ℚ), q.regularMarketPrice = none →
        q.currentPrice = some a → resolve_last q = some a)
    ∧ (∀ (q : RawQuote) (b : ℚ), q.previousClose = some b →
        resolve_prev q = some b)
    ∧ (∀ (q : RawQuote) (b : ℚ), q.previousClose = none →
        q.regularMarketPreviousClose = some b → resolve_prev q = some b)
    ∧ (∀ (c s cd pd : String) (q : RawQuote) (a b : ℚ),
        q.regularMarketPrice = some a → q.previousClose = some b →
        ∃ r : Record, normalize c s cd pd q = some r ∧
          r.last_done = py_round a 3 ∧ r.prev_close = py_round b 3) := by
  refine ⟨?_, ?_, ?_, ?_, ?_⟩
  · intro q a h; simp [resolve_last, h]
  · intro q a h h2; simp [resolve_last, h, h2]
  · intro q b h; simp [resolve_prev, h]
  · intro q b h h2; simp [resolve_prev, h, h2]
  · intro c s cd pd q a b ha hb
    have hl : resolve_last q = some a := by simp [resolve_last, ha]
    have hp : resolve_prev q = some b := by simp [resolve_prev, hb]
    have h : normalize c s cd pd q = some
        { company_name := c
          symbol := s
          prev_close := py_round b 3
          last_done := py_round a 3
          high := match q.dayHigh with | some h => py_round h 3 | none => 0
          low := match q.dayLow with | some l => py_round l 3 | none => 0
          change := py_round (a - b) 3
          change_pct := py_round (if b ≠ 0 then (a - b) / b * 100 else 0) 2
          current_date := cd
          prev_date := pd } := by
      simp only [normalize, hl, hp]
    exact ⟨_, h, rfl, rfl⟩

/-- Witness for C1 at the concrete quote `quote_primary` (primaries 10.5
and 10, fallbacks 999): the record stores the rounded primaries, and those
rounded values are 10.5 and 10, not 999. -/
theorem fallback_precedence_witness :
    (∃ r : Record,
        normalize "ABC" "0001.KL" "2026-10-12" "2026-10-11" quote_primary = some r ∧
        r.last_done = py_round (21/2) 3 ∧ r.prev_close = py_round 10 3)
    ∧ py_round (21/2) 3 = 21/2 ∧ py_round 10 3 = 10 :=
  ⟨fallback_precedence.2.2.2.2 "ABC" "0001.KL" "2026-10-12" "2026-10-11"
      quote_primary (21/2) 10 rfl rfl,
    by norm_num [py_round, round_half_even],
    by norm_num [py_round, round_half_even]⟩

/-- C3: when the resolved previous close is exactly 0 the record's
`change_pct` is exactly 0 (no division is performed on that branch), and
when it is nonzero `change_pct` is the percentage change rounded to 2
decimals. -/
theorem change_pct_zero_guard :
    ∀ (c s cd pd : String) (q : RawQuote) (r : Record),
      normalize c s cd pd q = some r →
      (resolve_prev q = some 0 → r.change_pct = 0)
      ∧ (∀ ld pc : ℚ, resolve_last q = some ld → resolve_prev q = some pc →
          pc ≠ 0 → r.change_pct = py_round ((ld - pc) / pc * 100) 2) := by
  intro c s cd pd q r hr
  rcases hl : resolve_last q with _ | ld₀
  · rw [normalize, hl] at hr; cases hr
  rcases hp : resolve_prev q with _ | pc₀
  · rw [normalize, hl, hp] at hr; cases hr
  rw [normalize, hl, hp, Option.some_inj] at hr
  constructor
  · intro h0
    have h0₂ : pc₀ = 0 := Option.some_inj.mp h0
    subst h0₂
    rw [← hr]
    norm_num [py_round, round_half_even]
  · intro ld pc hld hpc hne
    have h1 : ld₀ = ld := Option.some_inj.mp hld
    have h2 : pc₀ = pc := Option.some_inj.mp hpc
    subst h1; subst h2
    rw [← hr]
    simp [hne]

/-- Witness for C3 at `quote_zero_prev` (`previousClose = 0`,
`regularMarketPrice = 5`): a record is produced and its `change_pct` is
exactly 0. -/
theorem change_pct_zero_guard_witness :
    ∃ r : Record, normalize "ABC" "0001.KL" "2026-10-12" "2026-10-11" quote_zero_prev
        = some r ∧ r.change_pct = 0 :=
  ⟨_, rfl,
    (change_pct_zero_guard "ABC" "0001.KL" "2026-10-12" "2026-10-11"
        quote_zero_prev _ rfl).1 rfl⟩

/-- C10: the stored `change` is the rounding of the difference of the
unrounded resolved prices, and on a concrete quote it differs from the
difference of the stored (already rounded) prices. -/
theorem change_rounds_after_subtraction :
    (∀ (c s cd pd : String) (q : RawQuote) (ld pc : ℚ) (r : Record),
        resolve_last q = some ld → resolve_prev q = some pc →
        normalize c s cd pd q = some r → r.change = py_round (ld - pc) 3)
    ∧ (∃ (r : Record),
        normalize "A" "S" "2026-10-12" "2026-10-11" quote_round_gap = some r ∧
        r.change ≠ r.last_done - r.prev_close) := by
  constructor
  · intro c s cd pd q ld pc r hl hp hr
    rw [normalize, hl, hp, Option.some_inj] at hr
    rw [← hr]
  · refine ⟨_, rfl, ?_⟩
    show py_round (10004/10000 - 8/10000) 3 ≠
        py_round (10004/10000) 3 - py_round (8/10000) 3
    norm_num [py_round, round_half_even]

/-- Witness for C10's universally quantified part at `quote_round_gap`,
discharging the resolution hypotheses concretely. -/
theorem change_rounds_after_subtraction_witness :
    ∃ r : Record, normalize "A" "S" "2026-10-12" "2026-10-11" quote_round_gap
        = some r ∧ r.change = py_round (10004/10000 - 8/10000) 3 :=
  ⟨_, rfl,
    change_rounds_after_subtraction.1 "A" "S" "2026-10-12" "2026-10-11"
      quote_round_gap (10004/10000) (8/10000) _ rfl rfl rfl⟩

/-- A record is produced exactly when both prices resolve. -/
theorem normalize_isSome (c s cd pd : String) (q : RawQuote) :
    (normalize c s cd pd q).isSome = true ↔
      ((resolve_last q).isSome = true ∧ (resolve_prev q).isSome = true) := by
  rcases hl : resolve_last q with _ | ld <;>
    rcases hp : resolve_prev q with _ | pc <;>
      simp [normalize, hl, hp]

/-- The produced record carries the company name of its symbol entry. -/
theorem normalize_company (c s cd pd : String) (q : RawQuote) (r : Record)
    (h : normalize c s cd pd q = some r) : r.company_name = c := by
  rcases hl : resolve_last q with _ | ld
  · rw [normalize, hl] at h; cases h
  rcases hp : resolve_prev q with _ | pc
  · rw [normalize, hl, hp] at h; cases h
  rw [normalize, hl, hp, Option.some_inj] at h
  rw [← h]

/-- Membership in the fetched record set, unfolded to the originating
symbol entry. -/
theorem mem_get_closing_prices {cd pd : String}
    {items : List (String × String × Option RawQuote)} {r : Record} :
    r ∈ get_closing_prices cd pd items ↔
      ∃ it ∈ items, ∃ q : RawQuote,
        it.2.2 = some q ∧ normalize it.1 it.2.1 cd pd q = some r := by
  unfold get_closing_prices
  rw [List.mem_filterMap]
  constructor
  · rintro ⟨it, hit, hf⟩
    rcases hq : it.2.2 with _ | q
    · rw [hq] at hf; cases hf
    · rw [hq] at hf; exact ⟨it, hit, q, hq, hf⟩
  · rintro ⟨it, hit, q, hq, hn⟩
    refine ⟨it, hit, ?_⟩
    rw [hq]
    exact hn

/-- Under distinct company names, the record set has an entry for a
fetched company exactly when both of its prices resolved. -/
theorem company_record_iff (cd pd : String)
    (items : List (String × String × Option RawQuote)) (c s : String)
    (q : RawQuote)
    (hnd : (items.map (fun it => it.1)).Nodup)
    (hmem : (c, s, some q) ∈ items) :
    ((resolve_last q).isSome = true ∧ (resolve_prev q).isSome = true) ↔
      ∃ r ∈ get_closing_prices cd pd items, r.company_name = c := by
  constructor
  · intro hres
    have h3 : (normalize c s cd pd q).isSome = true :=
      (normalize_isSome c s cd pd q).mpr hres
    rcases Option.isSome_iff_exists.mp h3 with ⟨r, hr⟩
    refine ⟨r, ?_, normalize_company c s cd pd q r hr⟩
    exact mem_get_closing_prices.mpr ⟨(c, s, some q), hmem, q, rfl, hr⟩
  · rintro ⟨r, hrmem, hrc⟩
    rcases mem_get_closing_prices.mp hrmem with ⟨it, hit, q₂, hq₂, hn₂⟩
    have hc₂ : r.company_name = it.1 :=
      normalize_company it.1 it.2.1 cd pd q₂ r hn₂
    have hiteq : it = (c, s, some q) := by
      apply List.inj_on_of_nodup_map hnd hit hmem
      rw [← hc₂, hrc]
    subst hiteq
    have hqq : q = q₂ := Option.some_inj.mp hq₂
    rw [← hqq] at hn₂
    apply (normalize_isSome c s cd pd q).mp
    rw [hn₂]
    rfl

/-- Every record the summary lists among the gainers belongs to the
record set. -/
theorem top_gainers_subset (rs : List Record) :
    ∀ r ∈ (generate_stock_summary rs).top_gainers, r ∈ rs := by
  intro r hr
  have h1 : r ∈ sort_desc rs := (List.take_sublist 5 (sort_desc rs)).subset hr
  exact (List.perm_insertionSort _ rs).subset h1

/-- Every record the summary lists among the losers belongs to the
record set. -/
theorem top_losers_subset (rs : List Record) :
    ∀ r ∈ (generate_stock_summary rs).top_losers, r ∈ rs := by
  intro r hr
  have h1 : r ∈ sort_desc rs :=
    (List.drop_sublist ((sort_desc rs).length - 5) (sort_desc rs)).subset hr
  exact (List.perm_insertionSort _ rs).subset h1

/-- C2: a record is produced for a symbol exactly when both prices
resolve; a symbol for which either resolution fails has no record in the
record set and hence appears nowhere downstream (here: in neither summary
list). -/
theorem record_iff_both_resolved :
    (∀ (c s cd pd : String) (q : RawQuote),
        (normalize c s cd pd q).isSome = true ↔
          ((resolve_last q).isSome = true ∧ (resolve_prev q).isSome = true))
    ∧ (∀ (cd pd : String) (items : List (String × String × Option RawQuote))
          (c s : String) (q : RawQuote),
        (items.map (fun it => it.1)).Nodup →
        (c, s, some q) ∈ items →
        (((resolve_last q).isSome = true ∧ (resolve_prev q).isSome = true) ↔
          ∃ r ∈ get_closing_prices cd pd items, r.company_name = c))
    ∧ (∀ (cd pd : String) (items : List (String × String × Option RawQuote))
          (c s : String) (q : RawQuote),
        (items.map (fun it => it.1)).Nodup →
        (c, s, some q) ∈ items →
        (resolve_last q = none ∨ resolve_prev q = none) →
        (∀ r ∈ get_closing_prices cd pd items, r.company_name ≠ c)
        ∧ (∀ r ∈ (generate_stock_summary
              (get_closing_prices cd pd items)).top_gainers,
            r.company_name ≠ c)
        ∧ (∀ r ∈ (generate_stock_summary
              (get_closing_prices cd pd items)).top_losers,
            r.company_name ≠ c)) := by
  refine ⟨normalize_isSome, company_record_iff, ?_⟩
  intro cd pd items c s q hnd hmem hres
  have hnot : ¬ ((resolve_last q).isSome = true ∧ (resolve_prev q).isSome = true) := by
    rcases hres with h | h <;> simp [h]
  have habs : ∀ r ∈ get_closing_prices cd pd items, r.company_name ≠ c := by
    intro r hr hrc
    exact hnot ((company_record_iff cd pd items c s q hnd hmem).mpr ⟨r, hr, hrc⟩)
  refine ⟨habs, ?_, ?_⟩
  · intro r hr
    exact habs r (top_gainers_subset _ r hr)
  · intro r hr
    exact habs r (top_losers_subset _ r hr)

/-- Witness for C2 on the two-symbol fetch `items_pair`: "A" (both prices
resolve) contributes the record `rec_a`, while "B" (no previous close at
all) owns no record in the set. -/
theorem record_iff_both_resolved_witness :
    rec_a ∈ get_closing_prices "2026-10-12" "2026-10-11" items_pair
    ∧ rec_a.company_name ≠ "B"
    ∧ (resolve_last quote_no_prev).isSome = true
    ∧ (resolve_prev quote_no_prev).isSome = false := by
  have hmem : rec_a ∈ get_closing_prices "2026-10-12" "2026-10-11" items_pair :=
    List.Mem.head _
  refine ⟨hmem, ?_, rfl, rfl⟩
  exact (record_iff_both_resolved.2.2 "2026-10-12" "2026-10-11" items_pair
      "B" "S2" quote_no_prev (by simp [items_pair])
      (by simp [items_pair]) (Or.inr rfl)).1 rec_a hmem

/-- C4: the gate is false exactly on weekdays 5 (Saturday) and 6 (Sunday)
in Python's Monday-is-0 convention, true on Monday through Friday, and it
depends on the input date only through its weekday (no holiday
calendar). -/
theorem market_day_iff_weekday :
    (∀ d : ℕ, is_market_day d = false ↔
        (python_weekday d = 5 ∨ python_weekday d = 6))
    ∧ (∀ d : ℕ, is_market_day d = true ↔ python_weekday d < 5)
    ∧ (∀ d e : ℕ, python_weekday d = python_weekday e →
        is_market_day d = is_market_day e) := by
  refine ⟨?_, ?_, ?_⟩
  · intro d
    have h7 : python_weekday d < 7 := Nat.mod_lt _ (by norm_num)
    by_cases h : 5 ≤ python_weekday d <;> simp [is_market_day, h] <;> omega
  · intro d
    by_cases h : 5 ≤ python_weekday d <;> simp [is_market_day, h] <;> omega
  · intro d e h
    simp [is_market_day, h]

/-- Witness for C4: days 4 and 11 share weekday Friday and get the same
verdict; ordinal 6 is a Saturday (closed), ordinal 1 a Monday (open). -/
theorem market_day_iff_weekday_witness :
    is_market_day 4 = is_market_day 11
    ∧ is_market_day 6 = false
    ∧ is_market_day 1 = true :=
  ⟨market_day_iff_weekday.2.2 4 11 rfl, rfl, rfl⟩

/-- C5: on a market day with an empty record set the run logs the failure
and ends at once: no render, no persist, no notify, exit status 0. -/
theorem empty_records_end_run :
    ∀ (write_outcome : Option String) (email_ok : Bool),
      (run_stock_scraper true [] write_outcome email_ok).phases
          = [Phase.fetch_all, Phase.fail_msg]
      ∧ Phase.fail_msg ∈ (run_stock_scraper true [] write_outcome email_ok).phases
      ∧ Phase.render ∉ (run_stock_scraper true [] write_outcome email_ok).phases
      ∧ Phase.persist_csv ∉ (run_stock_scraper true [] write_outcome email_ok).phases
      ∧ Phase.notify ∉ (run_stock_scraper true [] write_outcome email_ok).phases
      ∧ (run_stock_scraper true [] write_outcome email_ok).exit_code = 0 := by
  intro w e
  have h : run_stock_scraper true [] w e
      = { phases := [Phase.fetch_all, Phase.fail_msg], exit_code := 0 } := rfl
  rw [h]
  refine ⟨rfl, ?_, ?_, ?_, ?_, rfl⟩ <;> decide

/-- C6: when the CSV write fails (the writer reports no file path) the
notifier is never reached, while the run still completes with exit
status 0. -/
theorem persist_failure_skips_notify :
    ∀ (stock_data : List Record) (email_ok : Bool),
      stock_data ≠ [] →
      save_to_csv stock_data none = none
      ∧ Phase.notify ∉ (run_stock_scraper true stock_data none email_ok).phases
      ∧ Phase.persist_csv ∈ (run_stock_scraper true stock_data none email_ok).phases
      ∧ (run_stock_scraper true stock_data none email_ok).exit_code = 0 := by
  intro data e h
  have hne : data.isEmpty = false := by
    cases data with
    | nil => cases h rfl
    | cons a l => rfl
  refine ⟨?_, ?_, ?_, ?_⟩
  · simp [save_to_csv, hne]
  · simp [run_stock_scraper, save_to_csv, hne]
  · simp [run_stock_scraper, save_to_csv, hne]
  · simp [run_stock_scraper, hne]

/-- Witness for C6 on a one-record set with a failing write. -/
theorem persist_failure_skips_notify_witness :
    save_to_csv [flat_record "R1"] none = none
    ∧ Phase.notify ∉ (run_stock_scraper true [flat_record "R1"] none true).phases
    ∧ Phase.persist_csv ∈ (run_stock_scraper true [flat_record "R1"] none true).phases
    ∧ (run_stock_scraper true [flat_record "R1"] none true).exit_code = 0 :=
  persist_failure_skips_notify [flat_record "R1"] true (by simp)

/-- C7: the summary's two lists are the first five and last five elements
of the record set sorted by `change_pct` descending (a permutation of the
set, each slice again sorted descending); on a set of six records the two
five-element slices overlap and the overlap is kept, not deduplicated. -/
theorem summary_top_bottom :
    (∀ rs : List Record,
        (generate_stock_summary rs).top_gainers = (sort_desc rs).take 5
        ∧ (generate_stock_summary rs).top_losers
            = (sort_desc rs).drop ((sort_desc rs).length - 5)
        ∧ (sort_desc rs).Perm rs
        ∧ List.Sorted (fun a b => b.change_pct ≤ a.change_pct) (sort_desc rs)
        ∧ List.Sorted (fun a b => b.change_pct ≤ a.change_pct)
            ((generate_stock_summary rs).top_gainers)
        ∧ List.Sorted (fun a b => b.change_pct ≤ a.change_pct)
            ((generate_stock_summary rs).top_losers))
    ∧ (∃ rs : List Record, rs.length < 10
        ∧ (generate_stock_summary rs).top_gainers.length = 5
        ∧ (generate_stock_summary rs).top_losers.length = 5
        ∧ ∃ r : Record, r ∈ (generate_stock_summary rs).top_gainers
            ∧ r ∈ (generate_stock_summary rs).top_losers) := by
  constructor
  · intro rs
    have hs : List.Sorted (fun a b => b.change_pct ≤ a.change_pct) (sort_desc rs) :=
      List.sorted_insertionSort _ rs
    refine ⟨rfl, rfl, List.perm_insertionSort _ rs, hs, ?_, ?_⟩
    · exact List.Pairwise.sublist (List.take_sublist 5 (sort_desc rs)) hs
    · exact List.Pairwise.sublist
        (List.drop_sublist ((sort_desc rs).length - 5) (sort_desc rs)) hs
  · have hsort : sort_desc six_records = six_records := by
      simp [sort_desc, six_records, List.insertionSort, List.orderedInsert,
        flat_record]
    have h1 : (generate_stock_summary six_records).top_gainers
        = six_records.take 5 := by
      show (sort_desc six_records).take 5 = six_records.take 5
      rw [hsort]
    have h2 : (generate_stock_summary six_records).top_losers
        = six_records.drop 1 := by
      show (sort_desc six_records).drop ((sort_desc six_records).length - 5)
          = six_records.drop 1
      rw [hsort]
      rfl
    refine ⟨six_records, by simp [six_records], ?_, ?_, flat_record "R2", ?_, ?_⟩
    · rw [h1]; rfl
    · rw [h2]; rfl
    · rw [h1]
      exact List.Mem.tail _ (List.Mem.head _)
    · rw [h2]
      exact List.Mem.head _

/-- The three `change_pct` sign filters partition any list of records. -/
theorem counts_partition (l : List Record) :
    l.countP (fun r => decide (0 < r.change_pct))
      + l.countP (fun r => decide (r.change_pct < 0))
      + l.countP (fun r => decide (r.change_pct = 0)) = l.length := by
  induction l with
  | nil => rfl
  | cons a l ih =>
    have e1 := List.countP_cons (fun r : Record => decide (0 < r.change_pct)) a l
    have e2 := List.countP_cons (fun r : Record => decide (r.change_pct < 0)) a l
    have e3 := List.countP_cons (fun r : Record => decide (r.change_pct = 0)) a l
    rcases lt_trichotomy a.change_pct 0 with h | h | h
    · simp only [e1, e2, e3, List.length_cons, decide_eq_true_eq]
      rw [if_neg (lt_asymm h), if_pos h, if_neg h.ne]
      omega
    · simp only [e1, e2, e3, List.length_cons, decide_eq_true_eq]
      rw [if_neg (by rw [h]; exact lt_irrefl 0),
        if_neg (by rw [h]; exact lt_irrefl 0), if_pos h]
      omega
    · simp only [e1, e2, e3, List.length_cons, decide_eq_true_eq]
      rw [if_pos h, if_neg (lt_asymm h), if_neg h.ne']
      omega

/-- C8: the gainer, loser and unchanged counts of the summary add up
exactly to the total record count. -/
theorem summary_counts_sum :
    ∀ rs : List Record,
      (generate_stock_summary rs).gainers + (generate_stock_summary rs).losers
          + (generate_stock_summary rs).unchanged
        = (generate_stock_summary rs).total
      ∧ (generate_stock_summary rs).total = rs.length := by
  intro rs
  exact ⟨counts_partition rs, rfl⟩

/-- Counterexample to C9 as stated: with an environment that supplies no
credential at all, authentication still proceeds, using the hard-coded
placeholder — so the credential used is not always the environment's
value. -/
theorem env_credential_counterexample :
    (fun _ : String => (none : Option String)) "GMAIL_APP_PASSWORD" = none
    ∧ login_password (fun _ => none) = "your_app_password_here" :=
  ⟨rfl, rfl⟩

/-- C9 amended: when the environment variable is present its value is the
credential used; when it is absent the hard-coded placeholder
`sender_password` is silently used instead. -/
theorem env_credential_precedence :
    ∀ env : String → Option String,
      (∀ v : String, env "GMAIL_APP_PASSWORD" = some v → login_password env = v)
      ∧ (env "GMAIL_APP_PASSWORD" = none → login_password env = sender_password) := by
  intro env
  constructor
  · intro v hv
    simp [login_password, hv]
  · intro hv
    simp [login_password, hv]

/-- Witness for C9's amended statement at two concrete environments. -/
theorem env_credential_precedence_witness :
    login_password (fun _ => some "secret-from-env") = "secret-from-env"
    ∧ login_password (fun _ => none) = sender_password :=
  ⟨(env_credential_precedence (fun _ => some "secret-from-env")).1
      "secret-from-env" rfl,
    (env_credential_precedence (fun _ => none)).2 rfl⟩

end StockTracker
